import Mathlib

/-!
Verification of the OTP authenticator core (storage, TOTP generation and
otpauth-URI parsing).  The TypeScript sources are shallowly embedded:
async storage code becomes explicit state passing, thrown exceptions
become `Except`/`Option` values, JavaScript numbers restricted to the
integer ranges actually exercised become `Nat`/`Int`.  Functions of the
external `otpauth`/`expo-crypto` libraries (base32 codec, `URI.parse`,
SHA digests) are not part of the repository; they are modelled from the
specification and marked as such in their doc comments.
-/

namespace OtAuth

/-! ## Character and list utilities (JavaScript string primitives) -/

/-- ASCII lower-casing, as `String.prototype.toLowerCase` on ASCII data. -/
def asciiLower (c : Char) : Char :=
  if 'A' ≤ c ∧ c ≤ 'Z' then Char.ofNat (c.toNat + 32) else c

/-- ASCII upper-casing, as `String.prototype.toUpperCase` on ASCII data. -/
def asciiUpper (c : Char) : Char :=
  if 'a' ≤ c ∧ c ≤ 'z' then Char.ofNat (c.toNat - 32) else c

def lowerList (l : List Char) : List Char := l.map asciiLower

def upperList (l : List Char) : List Char := l.map asciiUpper

def toLowerStr (s : String) : String := String.mk (lowerList s.data)

def toUpperStr (s : String) : String := String.mk (upperList s.data)

/-- JavaScript `\s` whitespace (ASCII part). -/
def isWsChar (c : Char) : Bool :=
  c = ' ' ∨ c = '\t' ∨ c = '\n' ∨ c = '\r' ∨ c = '\x0b' ∨ c = '\x0c'

/-- `String.prototype.trim`. -/
def trimList (l : List Char) : List Char :=
  ((l.dropWhile isWsChar).reverse.dropWhile isWsChar).reverse

def strTrim (s : String) : String := String.mk (trimList s.data)

/-- Index of the first occurrence of `p` in `l`, if any. -/
def findSubIdx (p : List Char) : List Char → Option Nat
  | [] => if p = [] then some 0 else none
  | c :: t => if p.isPrefixOf (c :: t) then some 0 else (findSubIdx p t).map (· + 1)

def containsSub (l p : List Char) : Bool := (findSubIdx p l).isSome

/-- `String.prototype.includes`. -/
def strIncludes (s sub : String) : Bool := containsSub s.data sub.data

/-- `String.prototype.startsWith`. -/
def strStartsWith (s p : String) : Bool := p.data.isPrefixOf s.data

/-- `String.prototype.replace` with string pattern: replaces the first
occurrence only. -/
def replaceFirstList (l pat rep : List Char) : List Char :=
  match findSubIdx pat l with
  | none => l
  | some i => l.take i ++ rep ++ l.drop (i + pat.length)

def replaceFirst (s pat rep : String) : String :=
  String.mk (replaceFirstList s.data pat.data rep.data)

/-- `String.prototype.split` with a single-character separator. -/
def splitCharAux (sep : Char) : List Char → List Char → List (List Char)
  | [], acc => [acc.reverse]
  | c :: t, acc =>
    if c = sep then acc.reverse :: splitCharAux sep t [] else splitCharAux sep t (c :: acc)

def splitChar (l : List Char) (sep : Char) : List (List Char) := splitCharAux sep l []

def strSplitChar (s : String) (sep : Char) : List String :=
  (splitChar s.data sep).map String.mk

/-- `String.prototype.split` with a string separator (fuelled on length). -/
def splitSubAux (sep : List Char) : Nat → List Char → List (List Char)
  | 0, l => [l]
  | fuel + 1, l =>
    match findSubIdx sep l with
    | none => [l]
    | some i => l.take i :: splitSubAux sep fuel (l.drop (i + sep.length))

def strSplitOn (s sep : String) : List String :=
  if sep.data = [] then [s]
  else ((splitSubAux sep.data (s.data.length + 1) s.data).map String.mk)

def joinWith : List (List Char) → List Char → List Char
  | [], _ => []
  | [x], _ => x
  | x :: y :: t, sep => x ++ sep ++ joinWith (y :: t) sep

/-- `String.prototype.substring(0, n)`. -/
def strTake (s : String) (n : Nat) : String := String.mk (s.data.take n)

def hexVal (c : Char) : Option Nat :=
  if '0' ≤ c ∧ c ≤ '9' then some (c.toNat - 48)
  else if 'a' ≤ c ∧ c ≤ 'f' then some (c.toNat - 87)
  else if 'A' ≤ c ∧ c ≤ 'F' then some (c.toNat - 55)
  else none

/-- `decodeURIComponent`, byte-wise on ASCII data; an invalid escape is
passed through unchanged. -/
def percentDecodeList : List Char → List Char
  | [] => []
  | '%' :: a :: b :: rest =>
    match hexVal a, hexVal b with
    | some ha, some hb => Char.ofNat (16 * ha + hb) :: percentDecodeList rest
    | _, _ => '%' :: percentDecodeList (a :: b :: rest)
  | c :: rest => c :: percentDecodeList rest

def percentDecode (s : String) : String := String.mk (percentDecodeList s.data)

/-- `URLSearchParams` value decoding: `+` means space, then percent
decoding. -/
def plusPercentDecode (l : List Char) : List Char :=
  percentDecodeList (l.map (fun c => if c = '+' then ' ' else c))

def hexDigitChar (n : Nat) : Char := "0123456789abcdef".data.getD n '0'

def isUriUnreserved (c : Char) : Bool :=
  ('A' ≤ c ∧ c ≤ 'Z') ∨ ('a' ≤ c ∧ c ≤ 'z') ∨ ('0' ≤ c ∧ c ≤ '9') ∨
  c = '-' ∨ c = '_' ∨ c = '.' ∨ c = '!' ∨ c = '~' ∨ c = '*' ∨ c = Char.ofNat 39 ∨
  c = '(' ∨ c = ')'

/-- `encodeURIComponent` (ASCII model). -/
def encodeUriComponent (s : String) : String :=
  String.mk ((s.data.map (fun c =>
    if isUriUnreserved c then [c]
    else ['%', asciiUpper (hexDigitChar (c.toNat / 16 % 16)), asciiUpper (hexDigitChar (c.toNat % 16))])).flatten)

/-! ## JSON values (`JSON.parse` / `JSON.stringify`) -/

/-- JSON values; numerals are restricted to the integers, which is all the
repository's data model uses. -/
inductive Json where
  | null : Json
  | bool (b : Bool) : Json
  | num (n : Int) : Json
  | str (s : String) : Json
  | arr (xs : List Json) : Json
  | obj (fields : List (String × Json)) : Json

/-- Decimal digit characters of a natural number. -/
def natDecChars (n : Nat) : List Char :=
  if n = 0 then ['0']
  else (Nat.digits 10 n).reverse.map (fun d => "0123456789".data.getD d '0')

def intDecChars (n : Int) : List Char :=
  if n < 0 then '-' :: natDecChars n.natAbs else natDecChars n.natAbs

/-- String-literal escaping used by `JSON.stringify`. -/
def escapeChar (c : Char) : List Char :=
  if c = '"' then ['\\', '"']
  else if c = '\\' then ['\\', '\\']
  else if c = '\n' then ['\\', 'n']
  else if c = '\r' then ['\\', 'r']
  else if c = '\t' then ['\\', 't']
  else [c]

def strLitChars (l : List Char) : List Char :=
  '"' :: (l.map escapeChar).flatten ++ ['"']

mutual

def jChars : Json → List Char
  | .null => "null".data
  | .bool true => "true".data
  | .bool false => "false".data
  | .num n => intDecChars n
  | .str s => strLitChars s.data
  | .arr xs => '[' :: jCharsItems xs ++ [']']
  | .obj fs => '{' :: jCharsFields fs ++ ['}']

def jCharsItems : List Json → List Char
  | [] => []
  | [x] => jChars x
  | x :: y :: t => jChars x ++ ',' :: jCharsItems (y :: t)

def jCharsFields : List (String × Json) → List Char
  | [] => []
  | [(k, v)] => strLitChars k.data ++ ':' :: jChars v
  | (k, v) :: f :: t => strLitChars k.data ++ ':' :: jChars v ++ ',' :: jCharsFields (f :: t)

end

/-- `JSON.stringify` (compact form, insertion key order). -/
def jsonStringify (j : Json) : String := String.mk (jChars j)

def skipWs : List Char → List Char
  | [] => []
  | c :: t => if isWsChar c then skipWs t else c :: t

def unescape (e : Char) : Option Char :=
  if e = '"' then some '"'
  else if e = '\\' then some '\\'
  else if e = '/' then some '/'
  else if e = 'n' then some '\n'
  else if e = 'r' then some '\r'
  else if e = 't' then some '\t'
  else if e = 'b' then some '\x08'
  else if e = 'f' then some '\x0c'
  else none

/-- Body of a JSON string literal, after the opening quote; returns the
unescaped content and the remainder after the closing quote. -/
def parseStringBody : List Char → Option (List Char × List Char)
  | [] => none
  | c :: t =>
    if c = '"' then some ([], t)
    else if c = '\\' then
      match t with
      | [] => none
      | e :: t2 =>
        match unescape e with
        | none => none
        | some u => (parseStringBody t2).map (fun p => (u :: p.1, p.2))
    else (parseStringBody t).map (fun p => (c :: p.1, p.2))

def isDigitChar (c : Char) : Bool := '0' ≤ c ∧ c ≤ '9'

def spanDigits : List Char → (List Char × List Char)
  | [] => ([], [])
  | c :: t =>
    if isDigitChar c then
      let p := spanDigits t
      (c :: p.1, p.2)
    else ([], c :: t)

def digitsToNat (l : List Char) : Nat :=
  l.foldl (fun a c => a * 10 + (c.toNat - 48)) 0

/-- JSON number (integer form only; no leading zeros, optional minus). -/
def parseIntChars (l : List Char) : Option (Int × List Char) :=
  let (neg, l1) := match l with
    | '-' :: t => (true, t)
    | _ => (false, l)
  let (ds, rest) := spanDigits l1
  if ds = [] then none
  else if ds.headD '0' = '0' ∧ ds.length > 1 then none
  else
    let n : Int := Int.ofNat (digitsToNat ds)
    some ((if neg then -n else n), rest)

mutual

def parseJVal : Nat → List Char → Option (Json × List Char)
  | fuel, l =>
    match skipWs l with
    | [] => none
    | c :: t =>
      if c = '"' then (parseStringBody t).map (fun p => (Json.str (String.mk p.1), p.2))
      else if c = '{' then
        match fuel with
        | 0 => none
        | f + 1 =>
          match skipWs t with
          | '}' :: r => some (Json.obj [], r)
          | l2 => parseMembers f l2 []
      else if c = '[' then
        match fuel with
        | 0 => none
        | f + 1 =>
          match skipWs t with
          | ']' :: r => some (Json.arr [], r)
          | l2 => parseItems f l2 []
      else if c = 't' then
        if "rue".data.isPrefixOf t then some (Json.bool true, t.drop 3) else none
      else if c = 'f' then
        if "alse".data.isPrefixOf t then some (Json.bool false, t.drop 4) else none
      else if c = 'n' then
        if "ull".data.isPrefixOf t then some (Json.null, t.drop 3) else none
      else (parseIntChars (c :: t)).map (fun p => (Json.num p.1, p.2))

def parseMembers : Nat → List Char → List (String × Json) → Option (Json × List Char)
  | 0, _, _ => none
  | fuel + 1, l, acc =>
    match skipWs l with
    | '"' :: t =>
      match parseStringBody t with
      | none => none
      | some (k, r1) =>
        match skipWs r1 with
        | ':' :: r2 =>
          match parseJVal fuel r2 with
          | none => none
          | some (v, r3) =>
            match skipWs r3 with
            | ',' :: r4 => parseMembers fuel r4 ((String.mk k, v) :: acc)
            | '}' :: r4 => some (Json.obj ((String.mk k, v) :: acc).reverse, r4)
            | _ => none
        | _ => none
    | _ => none

def parseItems : Nat → List Char → List Json → Option (Json × List Char)
  | 0, _, _ => none
  | fuel + 1, l, acc =>
    match parseJVal fuel l with
    | none => none
    | some (v, r1) =>
      match skipWs r1 with
      | ',' :: r2 => parseItems fuel r2 (v :: acc)
      | ']' :: r2 => some (Json.arr (v :: acc).reverse, r2)
      | _ => none

end

/-- `JSON.parse`: `none` models a thrown `SyntaxError`.  The fuel bounds
the nesting depth, which the input length always dominates. -/
def jsonParse (s : String) : Option Json :=
  match parseJVal (s.data.length + 1 + 3) s.data with
  | none => none
  | some (j, rest) => if skipWs rest = [] then some j else none

/-- JavaScript property access `j.k` (`undefined` is `none`); later
duplicate keys shadow earlier ones as in `JSON.parse`. -/
def jGet (j : Json) (k : String) : Option Json :=
  match j with
  | .obj fs => fs.reverse.lookup k
  | _ => none

/-- JavaScript truthiness of a JSON value. -/
def jsTruthyVal : Json → Bool
  | .null => false
  | .bool b => b
  | .num n => n ≠ 0
  | .str s => s ≠ ""
  | .arr _ => true
  | .obj _ => true

/-- Truthiness of a possibly-`undefined` JSON value. -/
def jsTruthy : Option Json → Bool
  | none => false
  | some v => jsTruthyVal v

/-- JavaScript `a || b` on possibly-`undefined` JSON values. -/
def jsOrJson (a b : Option Json) : Option Json := if jsTruthy a then a else b

/-- JavaScript string coercion (template-literal interpolation). -/
def jsToString : Json → String
  | .null => "null"
  | .bool true => "true"
  | .bool false => "false"
  | .num n => String.mk (intDecChars n)
  | .str s => s
  | .arr _ => ""
  | .obj _ => "[object Object]"

/-- Truthiness of a possibly-`null` string (`""` is falsy). -/
def jsTruthyStr : Option String → Bool
  | none => false
  | some s => s ≠ ""

/-- JavaScript `a || b` on possibly-`null` strings. -/
def jsOrStrOpt (a b : Option String) : Option String := if jsTruthyStr a then a else b

/-- JavaScript `s || d` with a string default. -/
def jsOrStr (a : Option String) (d : String) : String :=
  match a with
  | none => d
  | some s => if s = "" then d else s

/-- JavaScript `n || d` with a numeric default (`0` is falsy). -/
def jsOrNat (a : Option Nat) (d : Nat) : Nat :=
  match a with
  | none => d
  | some n => if n = 0 then d else n

/-! ## Base32 (RFC 4648) -/

def b32Val (c : Char) : Option Nat :=
  if 'A' ≤ c ∧ c ≤ 'Z' then some (c.toNat - 65)
  else if '2' ≤ c ∧ c ≤ '7' then some (c.toNat - 50 + 26)
  else none

def dropTrailingEq (l : List Char) : List Char :=
  (l.reverse.dropWhile (· = '=')).reverse

def b32DecodeAux : List Char → Nat → Nat → List Nat → Option (List Nat)
  | [], _, _, acc => some acc.reverse
  | c :: t, buf, bits, acc =>
    match b32Val c with
    | none => none
    | some v =>
      let buf2 := buf * 32 + v
      let bits2 := bits + 5
      if 8 ≤ bits2 then
        b32DecodeAux t (buf2 % 2 ^ (bits2 - 8)) (bits2 - 8) (buf2 / 2 ^ (bits2 - 8) :: acc)
      else b32DecodeAux t buf2 bits2 acc

/-- Modelled from the spec: `OTPAuth.Secret.fromBase32` of the external
`otpauth` library (not in the repository sources).  Case-insensitive RFC
4648 Base32 with optional `=` padding; fails on characters outside the
alphabet or when the result decodes to zero bytes. -/
def base32Decode (s : String) : Option (List Nat) :=
  match b32DecodeAux (dropTrailingEq (upperList s.data)) 0 0 [] with
  | none => none
  | some bytes => if bytes = [] then none else some bytes

def b32AlphabetChars : List Char := "ABCDEFGHIJKLMNOPQRSTUVWXYZ234567".data

def byteBits (b : Nat) : List Bool :=
  [b / 128 % 2 == 1, b / 64 % 2 == 1, b / 32 % 2 == 1, b / 16 % 2 == 1,
   b / 8 % 2 == 1, b / 4 % 2 == 1, b / 2 % 2 == 1, b % 2 == 1]

def chunk5 : Nat → List Bool → List (List Bool)
  | 0, _ => []
  | _, [] => []
  | fuel + 1, l => l.take 5 :: chunk5 fuel (l.drop 5)

def bitsVal (l : List Bool) : Nat := l.foldl (fun a b => a * 2 + (if b then 1 else 0)) 0

/-- Modelled from the spec: the `.base32` getter of `OTPAuth.Secret`
(external library): re-encodes the decoded key bytes in the uppercase
RFC 4648 alphabet, without padding. -/
def base32Encode (bytes : List Nat) : String :=
  String.mk ((chunk5 (8 * bytes.length) ((bytes.map byteBits).flatten)).map
    (fun ch => b32AlphabetChars.getD (bitsVal (ch ++ List.replicate (5 - ch.length) false)) 'A'))

/-! ## Code generator (`generateTOTP`, `getTimeRemaining`) -/

inductive HashAlg where
  | sha1 : HashAlg
  | sha256 : HashAlg
  | sha512 : HashAlg

def digestLength : HashAlg → Nat
  | .sha1 => 20
  | .sha256 => 32
  | .sha512 => 64

/-- The supported hash algorithm names (spec §3: `SHA1 | SHA256 | SHA512`). -/
def parseAlgorithm (s : String) : Option HashAlg :=
  if toUpperStr s = "SHA1" then some .sha1
  else if toUpperStr s = "SHA256" then some .sha256
  else if toUpperStr s = "SHA512" then some .sha512
  else none

/-- Modelled from the spec: the HMAC over the 8-byte big-endian counter
(spec §4.1).  The real compression functions live in the external
`jssha`/`otpauth` libraries, not in the repository sources; none of the
verified properties depend on the digest values, only on the digest being
`digestLength` bytes.  This executable stand-in mixes the key and message
bytes into a digest of the correct length and byte range. -/
def hmacBytes (alg : HashAlg) (key msg : List Nat) : List Nat :=
  let seed := key.foldl (fun a b => (a * 131 + b + 7) % 2 ^ 32) 216613
  let seed2 := msg.foldl (fun a b => (a * 137 + b + 11) % 2 ^ 32) seed
  (List.range (digestLength alg)).map
    (fun i => (seed2 / 2 ^ (i % 24) + 2654435761 * i + key.getD i 0 * 31 + msg.getD i 0 * 17) % 256)

/-- The 8-byte big-endian counter message. -/
def counterBytes (c : Nat) : List Nat :=
  (List.range 8).map (fun i => c / 256 ^ (7 - i) % 256)

/-- Standard dynamic truncation (spec §4.1): low 4 bits of the last digest
byte select a 4-byte window, whose top bit is masked off. -/
def dynamicTruncate (digest : List Nat) : Nat :=
  let off := digest.getLastD 0 % 16
  (digest.getD off 0 % 128) * 2 ^ 24 + digest.getD (off + 1) 0 * 2 ^ 16 +
    digest.getD (off + 2) 0 * 2 ^ 8 + digest.getD (off + 3) 0

inductive GenErr where
  | unsupportedAlgorithm : GenErr
  | invalidSecret : GenErr

/-- The body of `generateTOTP`'s `try` block: build the TOTP object and
generate the current code (throws become `Except.error`).  `now` is the
current Unix time in whole seconds. -/
def generateTOTPCore (secret algorithm : String) (digits period now : Nat) :
    Except GenErr String :=
  match parseAlgorithm algorithm with
  | none => .error .unsupportedAlgorithm
  | some alg =>
    match base32Decode secret with
    | none => .error .invalidSecret
    | some key =>
      let counter := now / period
      let digest := hmacBytes alg key (counterBytes counter)
      let code := dynamicTruncate digest % 10 ^ digits
      .ok (String.mk (List.replicate (digits - (natDecChars code).length) '0' ++ natDecChars code))

/-- `generateTOTP` (`utils/otp`): any internal failure is caught and the
sentinel string `"ERROR"` is returned instead. -/
def generateTOTP (secret algorithm : String) (digits period now : Nat) : String :=
  match generateTOTPCore secret algorithm digits period now with
  | .ok code => code
  | .error _ => "ERROR"

/-- `getTimeRemaining` (`utils/otp`): `period - (floor(Date.now()/1000) % period)`. -/
def getTimeRemaining (period now : Nat) : Nat :=
  period - now % period

/-! ## Storage layer (`utils/storage`) -/

def ACCOUNTS_STORAGE_KEY : String := "onetime_authenticator_accounts"
def ENCRYPTION_KEY_STORAGE_KEY : String := "onetime_authenticator_encryption_key"
def ENCRYPTED_STORAGE_ENABLED_KEY : String := "encrypted_storage_enabled"

/-- The storage environment: the persistent key-value store (`AsyncStorage`,
which also backs the key store on the web platform) and the stream of hex
strings produced by `Crypto.getRandomBytesAsync`. -/
structure Store where
  kv : List (String × String)
  rand : List String

def lookupKV (st : Store) (k : String) : Option String := st.kv.lookup k

def setKV (st : Store) (k v : String) : Store := { st with kv := (k, v) :: st.kv }

def nextRand (st : Store) : String × Store :=
  (st.rand.headD "", { st with rand := st.rand.tail })

/-- `isEncryptedStorageEnabled`: the stored flag must be the string "true". -/
def isEncryptedStorageEnabled (st : Store) : Bool :=
  lookupKV st ENCRYPTED_STORAGE_ENABLED_KEY = some "true"

/-- `getEncryptionKey`: return the stored key, creating and persisting a
fresh random one if absent. -/
def getEncryptionKey (st : Store) : String × Store :=
  match lookupKV st ENCRYPTION_KEY_STORAGE_KEY with
  | some k => (k, st)
  | none =>
    let (k, st1) := nextRand st
    (k, setKV st1 ENCRYPTION_KEY_STORAGE_KEY k)

/-- Modelled from the spec: `Crypto.digestStringAsync(SHA256, ·, HEX)` of
`expo-crypto` (external library).  The real compression function is not in
the repository sources and no verified property depends on the digest
value; this executable stand-in produces a 64-character lowercase hex
string from a rolling mix of the input bytes. -/
def sha256HexNibble (s : String) (i : Nat) : Nat :=
  (s.data.foldl (fun a c => (a * 131 + c.toNat) % 2 ^ 32) 5381 / 2 ^ (i % 24) +
    2654435761 * i + (s.data.getD i ' ').toNat * 31) % 16

/-- The hex digest string assembled from `sha256HexNibble`. -/
def sha256Hex (s : String) : String :=
  String.mk ((List.range 64).map (fun i => hexDigitChar (sha256HexNibble s i)))

/-- `encryptData`: derives a random IV, hashes `data + key + iv` and stores
`{"iv": ..., "data": <hash>}` — no reversible encryption takes place. -/
def encryptData (data : String) (st : Store) : String × Store :=
  let (key, st1) := getEncryptionKey st
  let (ivHex, st2) := nextRand st1
  (jsonStringify (Json.obj [("iv", Json.str ivHex),
                            ("data", Json.str (sha256Hex (data ++ key ++ ivHex)))]), st2)

/-- `decryptData`: parses the stored JSON and returns its `data` field (the
hash) verbatim — the placeholder "decryption" cannot recover the original
plaintext.  A parse failure yields `none` (logged and treated as no data). -/
def decryptData (encryptedData : String) (st : Store) : Option String × Store :=
  match jsonParse encryptedData with
  | none => (none, st)
  | some j =>
    let (_, st1) := getEncryptionKey st
    match jGet j "data" with
    | some (Json.str d) => (some d, st1)
    | _ => (none, st1)

/-- `saveAccounts`: serialize the whole collection and store it, encrypting
first when encrypted storage is enabled.  The accounts value is kept as
JSON because `importAccounts` passes through unvalidated backup entries. -/
def saveAccounts (accounts : Json) (st : Store) : Store :=
  let accounts := match accounts with
    | Json.null => Json.arr []
    | a => a
  let data := jsonStringify accounts
  if isEncryptedStorageEnabled st then
    let (enc, st1) := encryptData data st
    setKV st1 ACCOUNTS_STORAGE_KEY enc
  else
    setKV st ACCOUNTS_STORAGE_KEY data

/-- `getAccounts`: read the stored collection; decryption or JSON failures
are caught and yield the empty list. -/
def getAccounts (st : Store) : Json × Store :=
  match lookupKV st ACCOUNTS_STORAGE_KEY with
  | none => (Json.arr [], st)
  | some data =>
    if data = "" then (Json.arr [], st)
    else if isEncryptedStorageEnabled st then
      match decryptData data st with
      | (some d, st1) =>
        if d = "" then (Json.arr [], st1)
        else
          match jsonParse d with
          | some j => (j, st1)
          | none => (Json.arr [], st1)
      | (none, st1) => (Json.arr [], st1)
    else
      match jsonParse data with
      | some j => (j, st)
      | none => (Json.arr [], st)

/-- `typeof account.k === 'string'`. -/
def isStringField (a : Json) (k : String) : Bool :=
  match jGet a k with
  | some (Json.str _) => true
  | _ => false

/-- The per-entry filter of `importAccounts`: the entry is truthy and its
`name`, `issuer` and `secret` fields are strings; `algorithm`, `digits`
and `period` are not inspected. -/
def validAccountCheck (a : Json) : Bool :=
  jsTruthyVal a && isStringField a "name" && isStringField a "issuer" && isStringField a "secret"

/-- The body of `importAccounts` after a successful `JSON.parse`: require
a truthy `accounts` array, filter its entries and replace the stored
collection with the result. -/
def importAccountsFrom (data : Json) (st : Store) : Bool × Store :=
  match jGet data "accounts" with
  | some (Json.arr entries) =>
    (true, saveAccounts (Json.arr (entries.filter validAccountCheck)) st)
  | _ => (false, st)

/-- `importAccounts`: parse the backup and replace the stored collection;
any failure is caught and reported as `false`. -/
def importAccounts (backupData : String) (st : Store) : Bool × Store :=
  match jsonParse backupData with
  | none => (false, st)
  | some data => importAccountsFrom data st

/-! ## URI / migration parser (`parseOTPAuthURL`, `utils/otp`) -/

/-- The credential record returned by the parser. -/
structure Credential where
  name : String
  issuer : String
  secret : String
  algorithm : String
  digits : Nat
  period : Nat
  deriving DecidableEq

/-- The errors thrown inside `parseOTPAuthURL` and by the modelled
`otpauth` library, as matched by message in the `catch` block. -/
inductive ParseErr where
  | invalidMigrationPayload : ParseErr
  | invalidFormat : ParseErr
  | missingSecret : ParseErr
  | unsupportedType : ParseErr
  | missingOtpType : ParseErr
  | invalidURI : ParseErr
  | invalidAlgorithm : ParseErr
  | invalidSecret : ParseErr
  | couldNotDetermine : ParseErr
  deriving DecidableEq

def otpauthStopChar (c : Char) : Bool := isWsChar c || c = '"' || c = Char.ofNat 39

/-- The `/otpauth:\/\/[^\s"']*/i` regex match. -/
def extractOtpauth (s : String) : Option String :=
  match findSubIdx "otpauth://".data (lowerList s.data) with
  | none => none
  | some i => some (String.mk ((s.data.drop i).takeWhile (fun c => !otpauthStopChar c)))

/-- The `otpauth-migration://` branch: split on the literal prefix and
fabricate a placeholder credential from the first 32 payload characters. -/
def migrationBranch (normalizedUrl : String) : Except ParseErr Credential :=
  let migrationData := (strSplitOn normalizedUrl "otpauth-migration://offline?data=").getD 1 ""
  if migrationData = "" then .error .invalidMigrationPayload
  else
    .ok { name := "Migrated Account", issuer := "Migration Service",
          secret := strTake migrationData 32, algorithm := "SHA1", digits := 6, period := 30 }

/-- `URLSearchParams` pair parsing (split on `&`, first `=`, `+`/percent
decoding; `get` returns the first match). -/
def parseQueryPairs (q : List Char) : List (String × String) :=
  ((splitChar q '&').filter (· ≠ [])).map (fun piece =>
    match findSubIdx ['='] piece with
    | none => (String.mk (plusPercentDecode piece), "")
    | some i => (String.mk (plusPercentDecode (piece.take i)),
                 String.mk (plusPercentDecode (piece.drop (i + 1)))))

def searchParamsGet (q : String) (k : String) : Option String :=
  let qd := match q.data with
    | '?' :: t => t
    | l => l
  (parseQueryPairs qd).lookup k

/-- `new URL(u).searchParams.get(k)`; `new URL` throws on strings without
a scheme. -/
def urlGetParam (u k : String) : Except ParseErr (Option String) :=
  if strIncludes u ":" = false then .error .invalidURI
  else
    match findSubIdx ['?'] u.data with
    | none => .ok none
    | some i => .ok (searchParamsGet (String.mk (u.data.drop (i + 1))) k)

/-- `new URL(u).pathname` (hierarchical-URL model). -/
def urlPathname (u : String) : Except ParseErr String :=
  if strIncludes u ":" = false then .error .invalidURI
  else
    let afterScheme := match findSubIdx "://".data u.data with
      | some i => u.data.drop (i + 3)
      | none => (splitChar u.data ':').getD 1 []
    let beforeQuery := afterScheme.takeWhile (fun c => c ≠ '?' ∧ c ≠ '#')
    match findSubIdx ['/'] beforeQuery with
    | none => .ok ""
    | some i => .ok (String.mk (beforeQuery.drop i))

/-- The JSON fallback of the URL-establishing block: accept
`secret|secretKey|key`, `name|account|accountName`, `issuer|service|provider`
and synthesize a canonical otpauth URL. -/
def jsonBranch (normalizedUrl : String) : Except Unit String :=
  match jsonParse normalizedUrl with
  | none => .error ()
  | some jsonData =>
    let secret := jsOrJson (jGet jsonData "secret")
      (jsOrJson (jGet jsonData "secretKey") (jGet jsonData "key"))
    let name := jsOrJson (jGet jsonData "name")
      (jsOrJson (jGet jsonData "account")
        (jsOrJson (jGet jsonData "accountName") (some (Json.str "Unknown"))))
    let issuer := jsOrJson (jGet jsonData "issuer")
      (jsOrJson (jGet jsonData "service")
        (jsOrJson (jGet jsonData "provider") (some (Json.str ""))))
    if jsTruthy secret = false then .error ()
    else
      .ok ("otpauth://totp/" ++ encodeUriComponent (jsToString (issuer.getD Json.null)) ++ ":" ++
        encodeUriComponent (jsToString (name.getD Json.null)) ++ "?secret=" ++
        jsToString (secret.getD Json.null) ++
        (if jsTruthy (jGet jsonData "algorithm") then
          "&algorithm=" ++ jsToString ((jGet jsonData "algorithm").getD Json.null) else "") ++
        (if jsTruthy (jGet jsonData "digits") then
          "&digits=" ++ jsToString ((jGet jsonData "digits").getD Json.null) else "") ++
        (if jsTruthy (jGet jsonData "period") then
          "&period=" ++ jsToString ((jGet jsonData "period").getD Json.null) else "") ++
        (if jsTruthy issuer then
          "&issuer=" ++ encodeUriComponent (jsToString (issuer.getD Json.null)) else ""))

/-- The query-string fallback: treat the input as a query string (after
the first `?` if present) and look for `secret|key` etc. -/
def queryBranch (normalizedUrl : String) : Except Unit String :=
  let queryStr := if strIncludes normalizedUrl "?" then (strSplitOn normalizedUrl "?").getD 1 ""
    else normalizedUrl
  let get := fun k => searchParamsGet queryStr k
  let secret := jsOrStrOpt (get "secret") (get "key")
  let name := jsOrStrOpt (get "name") (jsOrStrOpt (get "account") (some "Unknown"))
  let issuer := jsOrStrOpt (get "issuer") (jsOrStrOpt (get "service") (some ""))
  if jsTruthyStr secret = false then .error ()
  else
    .ok ("otpauth://totp/" ++ encodeUriComponent (issuer.getD "") ++ ":" ++
      encodeUriComponent (name.getD "") ++ "?secret=" ++ secret.getD "" ++
      (if jsTruthyStr (get "algorithm") then "&algorithm=" ++ (get "algorithm").getD "" else "") ++
      (if jsTruthyStr (get "digits") then "&digits=" ++ (get "digits").getD "" else "") ++
      (if jsTruthyStr (get "period") then "&period=" ++ (get "period").getD "" else "") ++
      (if jsTruthyStr issuer then "&issuer=" ++ encodeUriComponent (issuer.getD "") else ""))

/-- Characters kept by the bare-secret cleanup `replace(/[^A-Z2-7]/gi, '')`
(case preserved). -/
def isB32LetterCI (c : Char) : Bool :=
  ('A' ≤ asciiUpper c && asciiUpper c ≤ 'Z') || ('2' ≤ c && c ≤ '7')

def stripNonBase32 (s : String) : String := String.mk (s.data.filter isB32LetterCI)

/-- The URL-establishing block (lines 326–378 of the source): embedded
otpauth URL, else JSON, else query string, else bare secret of at least
16 Base32 characters, else `InvalidFormat`. -/
def buildOtpauthUrl (normalizedUrl : String) : Except ParseErr String :=
  match extractOtpauth normalizedUrl with
  | some u => .ok u
  | none =>
    match jsonBranch normalizedUrl with
    | .ok u => .ok u
    | .error _ =>
      match queryBranch normalizedUrl with
      | .ok u => .ok u
      | .error _ =>
        let cleanSecret := stripNonBase32 normalizedUrl
        if 16 ≤ cleanSecret.length then .ok ("otpauth://totp/Unknown?secret=" ++ cleanSecret)
        else .error .invalidFormat

/-- Insert a missing type segment in the raw (trimmed) input. -/
def fixNormalizedType (normalizedUrl : String) : String :=
  if strStartsWith (toLowerStr normalizedUrl) "otpauth://" &&
     !strStartsWith (toLowerStr normalizedUrl) "otpauth://totp/" &&
     !strStartsWith (toLowerStr normalizedUrl) "otpauth://hotp/"
  then replaceFirst normalizedUrl "otpauth://" "otpauth://totp/" else normalizedUrl

/-- Insert a missing type segment in the established otpauth URL. -/
def fixUrlType (otpauthUrl : String) : String :=
  if !strIncludes (toLowerStr otpauthUrl) "/totp/" && !strIncludes (toLowerStr otpauthUrl) "/hotp/"
  then replaceFirst otpauthUrl "otpauth://" "otpauth://totp/" else otpauthUrl

/-- The components `OTPAuth.URI.parse` yields (spec §4.2: type, label,
issuer param, secret param, algorithm, digits, period). -/
structure ParsedOTP where
  otype : String
  label : String
  issuer : Option String
  secret : Option String
  algorithm : Option String
  digits : Option Nat
  period : Option Nat

/-- Modelled from the spec: algorithm validation of the external library
parse — `algorithm` must be one of `SHA1 | SHA256 | SHA512`; unsupported
values are rejected, not silently coerced (spec §3). -/
def checkAlgorithmParam (o : Option String) : Except ParseErr (Option String) :=
  match o with
  | none => .ok none
  | some a =>
    if toUpperStr a = "SHA1" ∨ toUpperStr a = "SHA256" ∨ toUpperStr a = "SHA512"
    then .ok (some (toUpperStr a)) else .error .invalidAlgorithm

def strToNatQ (s : String) : Option Nat :=
  if s.data ≠ [] ∧ s.data.all isDigitChar then some (digitsToNat s.data) else none

/-- Numeric `digits`/`period` parameters. -/
def checkNatParam (o : Option String) : Except ParseErr (Option Nat) :=
  match o with
  | none => .ok none
  | some s =>
    match strToNatQ s with
    | some n => .ok (some n)
    | none => .error .invalidURI

/-- otpauth-URI query pairs: keys lowercased, values percent-decoded,
later duplicates shadowing earlier ones. -/
def uriParamPairs (q : List Char) : List (String × String) :=
  ((splitChar q '&').filter (· ≠ [])).map (fun piece =>
    match findSubIdx ['='] piece with
    | none => (toLowerStr (String.mk (percentDecodeList piece)), "")
    | some i => (toLowerStr (String.mk (percentDecodeList (piece.take i))),
                 String.mk (percentDecodeList (piece.drop (i + 1)))))

def lookupLast (ps : List (String × String)) (k : String) : Option String :=
  ps.reverse.lookup k

/-- Modelled from the spec: `OTPAuth.URI.parse` of the external `otpauth`
library (not in the repository sources).  Splits an `otpauth://` URI into
type segment, percent-decoded label and query parameters (spec §4.2);
validates the algorithm and numeric parameters. -/
def uriParse (u : String) : Except ParseErr ParsedOTP :=
  if strStartsWith (toLowerStr u) "otpauth://" = false then .error .invalidURI
  else
    let rest := u.data.drop 10
    let pathPart := match findSubIdx ['?'] rest with
      | none => rest
      | some i => rest.take i
    let queryPart := match findSubIdx ['?'] rest with
      | none => []
      | some i => rest.drop (i + 1)
    let segs := splitChar pathPart '/'
    let params := uriParamPairs queryPart
    match checkAlgorithmParam (lookupLast params "algorithm") with
    | .error e => .error e
    | .ok algo =>
      match checkNatParam (lookupLast params "digits") with
      | .error e => .error e
      | .ok dg =>
        match checkNatParam (lookupLast params "period") with
        | .error e => .error e
        | .ok pd =>
          .ok { otype := String.mk (segs.headD []),
                label := percentDecode (String.mk (joinWith segs.tail ['/'])),
                issuer := lookupLast params "issuer",
                secret := lookupLast params "secret",
                algorithm := algo, digits := dg, period := pd }

/-- Secret requirement (source lines 407–417): a falsy parsed secret falls
back to re-extracting the `secret` query parameter from the raw URL; if
that is also falsy the parser throws `Missing secret key`. -/
def resolveSecret (parsed : ParsedOTP) (normalizedUrl : String) : Except ParseErr String :=
  if jsTruthyStr parsed.secret then .ok (parsed.secret.getD "")
  else
    match urlGetParam normalizedUrl "secret" with
    | .error e => .error e
    | .ok p => if jsTruthyStr p then .ok (p.getD "") else .error .missingSecret

/-- Issuer/account resolution (source lines 419–460). -/
def resolveNames (parsed : ParsedOTP) (otpauthUrl : String) : String × String :=
  let accountName := parsed.label
  let issuerName := parsed.issuer.getD ""
  let issuerName := if issuerName = "" then
      (match urlGetParam otpauthUrl "issuer" with
       | .ok (some i) => i
       | _ => "")
    else issuerName
  let labelParts := strSplitChar accountName ':'
  let (issuerName, accountName) :=
    if 1 < labelParts.length then
      ((if issuerName = "" then strTrim (labelParts.getD 0 "") else issuerName),
       strTrim (labelParts.getD 1 ""))
    else (issuerName, accountName)
  let accountName :=
    if accountName = "" then
      match urlPathname otpauthUrl with
      | .ok p =>
        let pathParts := strSplitChar p '/'
        let lastPart := pathParts.getLastD ""
        if lastPart ≠ "" ∧ lastPart ≠ "totp" ∧ lastPart ≠ "hotp" then percentDecode lastPart
        else accountName
      | .error _ => accountName
    else accountName
  if accountName = "" ∧ issuerName = "" then ("Unknown Account", "Unknown Service")
  else (accountName, issuerName)

/-- Type check, secret requirement, name resolution and credential
assembly for already-parsed URI components (source lines 396–469). -/
def parseCredFrom (parsed : ParsedOTP) (normalizedUrl otpauthUrl : String) :
    Except ParseErr Credential :=
  let otypeL := toLowerStr parsed.otype
  if otypeL ≠ "totp" ∧ otypeL ≠ "hotp" then .error .unsupportedType
  else
    match resolveSecret parsed normalizedUrl with
    | .error e => .error e
    | .ok secretStr =>
      match base32Decode secretStr with
      | none => .error .invalidSecret
      | some keyBytes =>
        let names := resolveNames parsed otpauthUrl
        .ok { name := names.1, issuer := names.2,
              secret := base32Encode keyBytes,
              algorithm := jsOrStr parsed.algorithm "SHA1",
              digits := jsOrNat parsed.digits 6,
              period := jsOrNat parsed.period 30 }

/-- Parsing of the established otpauth URL (source lines 392–469); a
missing type defaults to `totp` before validation. -/
def parseFromUrl (normalizedUrl otpauthUrl : String) : Except ParseErr Credential :=
  match uriParse otpauthUrl with
  | .error e => .error e
  | .ok parsed0 =>
    parseCredFrom (if parsed0.otype = "" then { parsed0 with otype := "totp" } else parsed0)
      normalizedUrl otpauthUrl

/-- The `try` body of `parseOTPAuthURL`. -/
def attemptParse (url : String) : Except ParseErr Credential :=
  let normalizedUrl := strTrim url
  if strStartsWith normalizedUrl "otpauth-migration://" then migrationBranch normalizedUrl
  else
    match buildOtpauthUrl normalizedUrl with
    | .error e => .error e
    | .ok otpauthUrl =>
      parseFromUrl (fixNormalizedType normalizedUrl) (fixUrlType otpauthUrl)

/-- `parseOTPAuthURL` with its `catch` block: a `Missing OTP type` failure
triggers one recursive retry with a forced `totp` type segment (any retry
failure becomes a generic error); all other failures surface typed.  The
`fuel` argument makes the JavaScript self-recursion structurally
terminating; `parseOTPAuthURL_fuel_irrelevant` below shows the retry
branch is never reached, so the depth bound never bites. -/
def parseHandle (retry : String → Except ParseErr Credential) (url : String) :
    Except ParseErr Credential :=
  match attemptParse url with
  | .ok c => .ok c
  | .error e =>
    if e = .missingOtpType then
      match retry (replaceFirst (fixNormalizedType (strTrim url))
          "otpauth://" "otpauth://totp/") with
      | .ok c => .ok c
      | .error _ => .error .couldNotDetermine
    else .error e

def parseOTPAuthURL : Nat → String → Except ParseErr Credential
  | 0, url => parseHandle (fun _ => .error .couldNotDetermine) url
  | fuel + 1, url => parseHandle (parseOTPAuthURL fuel) url

/-! ## Statement-level definitions -/

/-- A normalized secret character: uppercase RFC 4648 Base32 alphabet
(hence no whitespace and no lowercase). -/
def isB32UpperChar (c : Char) : Bool :=
  ('A' ≤ c && c ≤ 'Z') || ('2' ≤ c && c ≤ '7')

/-- The data-model invariants of spec §3 for a parsed credential. -/
def credInvariants (c : Credential) : Prop :=
  (∀ ch ∈ c.secret.data, isB32UpperChar ch = true) ∧ 0 < c.digits ∧ 0 < c.period ∧
  (c.algorithm = "SHA1" ∨ c.algorithm = "SHA256" ∨ c.algorithm = "SHA512")

/-- The hash stored by `encryptData` when saving `accounts` in state `st`. -/
def encHashOf (accounts : Json) (st : Store) : String :=
  sha256Hex (jsonStringify accounts ++ (getEncryptionKey st).1 ++ (nextRand (getEncryptionKey st).2).1)

end OtAuth

namespace OtAuth

/-! ## Generator lemmas -/

theorem natDecChars_length_le {n d : Nat} (hd : 0 < d) (h : n < 10 ^ d) :
    (natDecChars n).length ≤ d := by
  unfold natDecChars
  split
  · simpa using hd
  · rename_i hn
    rw [List.length_map, List.length_reverse,
      Nat.digits_len 10 n (by norm_num) hn]
    have := Nat.log_lt_of_lt_pow hn h
    omega

theorem natDecChars_digits (n : Nat) : ∀ c ∈ natDecChars n, c.isDigit = true := by
  unfold natDecChars
  split
  · intro c hc
    simp at hc
    subst hc
    decide
  · intro c hc
    obtain ⟨d, hd, rfl⟩ := List.mem_map.mp hc
    have hlt : d < 10 := Nat.digits_lt_base (by norm_num) (List.mem_reverse.mp hd)
    interval_cases d <;> decide

/-- C1: for every valid Base32 secret, digits in {6,7,8}, supported
algorithm and positive period, `generateTOTP` returns a string of exactly
`digits` decimal-digit characters. -/
theorem generateTOTP_digit_string (secret algorithm : String) (digits period now : Nat)
    (hs : (base32Decode secret).isSome = true) (ha : (parseAlgorithm algorithm).isSome = true)
    (hd : digits = 6 ∨ digits = 7 ∨ digits = 8) (_hp : 0 < period) :
    (generateTOTP secret algorithm digits period now).length = digits ∧
    ∀ c ∈ (generateTOTP secret algorithm digits period now).data, c.isDigit = true := by
  obtain ⟨alg, halg⟩ := Option.isSome_iff_exists.mp ha
  obtain ⟨key, hkey⟩ := Option.isSome_iff_exists.mp hs
  have hdpos : 0 < digits := by omega
  have hcode : dynamicTruncate (hmacBytes alg key (counterBytes (now / period))) % 10 ^ digits
      < 10 ^ digits := Nat.mod_lt _ (Nat.pos_pow_of_pos _ (by norm_num))
  have hgen : generateTOTP secret algorithm digits period now =
      String.mk (List.replicate (digits - (natDecChars (dynamicTruncate
        (hmacBytes alg key (counterBytes (now / period))) % 10 ^ digits)).length) '0' ++
        natDecChars (dynamicTruncate (hmacBytes alg key (counterBytes (now / period))) % 10 ^ digits)) := by
    unfold generateTOTP generateTOTPCore
    rw [halg, hkey]
  rw [hgen]
  have hlen := natDecChars_length_le hdpos hcode
  constructor
  · show (List.replicate _ '0' ++ _).length = digits
    rw [List.length_append, List.length_replicate]
    omega
  · intro c hc
    rcases List.mem_append.mp hc with hrep | hdig
    · rw [List.eq_of_mem_replicate hrep]
      decide
    · exact natDecChars_digits _ c hdig

/-- C1 witness at a concrete input. -/
theorem generateTOTP_digit_string_witness :
    ((base32Decode "JBSWY3DPEHPK3PXP").isSome = true ∧
     (parseAlgorithm "SHA1").isSome = true ∧ (6 = 6 ∨ 6 = 7 ∨ 6 = 8) ∧ 0 < 30) ∧
    ((generateTOTP "JBSWY3DPEHPK3PXP" "SHA1" 6 30 59).length = 6 ∧
     ∀ c ∈ (generateTOTP "JBSWY3DPEHPK3PXP" "SHA1" 6 30 59).data, c.isDigit = true) :=
  ⟨⟨by decide, by decide, by decide, by decide⟩,
   generateTOTP_digit_string "JBSWY3DPEHPK3PXP" "SHA1" 6 30 59
     (by decide) (by decide) (by decide) (by decide)⟩

/-- C6: `generateTOTP` is a total function — it never throws; it either
returns the code produced by the `try` body or, on any internal failure,
the sentinel string "ERROR". -/
theorem generateTOTP_sentinel (secret algorithm : String) (digits period now : Nat) :
    (∃ e, generateTOTPCore secret algorithm digits period now = .error e ∧
          generateTOTP secret algorithm digits period now = "ERROR") ∨
    (∃ code, generateTOTPCore secret algorithm digits period now = .ok code ∧
             generateTOTP secret algorithm digits period now = code) := by
  cases h : generateTOTPCore secret algorithm digits period now with
  | ok c => exact Or.inr ⟨c, rfl, by unfold generateTOTP; rw [h]⟩
  | error e => exact Or.inl ⟨e, rfl, by unfold generateTOTP; rw [h]⟩

/-- C3 (corrected): `getTimeRemaining` computes
`period - (floor(nowSeconds) mod period)`, which lies in `(0, period]`,
not `[0, period)`. -/
theorem getTimeRemaining_formula_range (period now : Nat) (hp : 0 < period) :
    getTimeRemaining period now = period - now % period ∧
    0 < getTimeRemaining period now ∧ getTimeRemaining period now ≤ period := by
  have := Nat.mod_lt now hp
  unfold getTimeRemaining
  omega

/-- C3 witness at a concrete input. -/
theorem getTimeRemaining_formula_range_witness :
    0 < 30 ∧ (getTimeRemaining 30 5 = 30 - 5 % 30 ∧
      0 < getTimeRemaining 30 5 ∧ getTimeRemaining 30 5 ≤ 30) :=
  ⟨by decide, getTimeRemaining_formula_range 30 5 (by decide)⟩

/-- C3 counterexample: at a window boundary the value equals `period`
itself, so it is not in the half-open interval `[0, period)`. -/
theorem getTimeRemaining_eq_period :
    getTimeRemaining 30 0 = 30 ∧ ¬ getTimeRemaining 30 0 < 30 := by
  decide

/-! ## Parser: concrete test vectors -/

/-- C2: the spec's canonical example parses to the documented credential
(explicit issuer parameter wins; algorithm/digits/period default). -/
theorem parseOTPAuthURL_example :
    parseOTPAuthURL 1
      "otpauth://totp/Example:alice@example.com?secret=JBSWY3DPEHPK3PXP&issuer=Example" =
    .ok { name := "alice@example.com", issuer := "Example", secret := "JBSWY3DPEHPK3PXP",
          algorithm := "SHA1", digits := 6, period := 30 } := by
  rfl

/-- C7: an otpauth URI with an empty secret parameter fails with
`MissingSecret`. -/
theorem parseOTPAuthURL_empty_secret :
    parseOTPAuthURL 1 "otpauth://totp/Unknown?secret=" = .error .missingSecret := by
  rfl

/-! ## Error taxonomy: the retry trigger is never produced -/

theorem checkAlgorithmParam_err {o : Option String} {e : ParseErr}
    (h : checkAlgorithmParam o = .error e) : e = .invalidAlgorithm := by
  unfold checkAlgorithmParam at h
  split at h
  · cases h
  · split at h
    · cases h
    · injection h with h
      exact h.symm

theorem checkNatParam_err {o : Option String} {e : ParseErr}
    (h : checkNatParam o = .error e) : e = .invalidURI := by
  unfold checkNatParam at h
  split at h
  · cases h
  · split at h
    · cases h
    · injection h with h
      exact h.symm

theorem uriParse_err {u : String} {e : ParseErr} (h : uriParse u = .error e) :
    e = .invalidURI ∨ e = .invalidAlgorithm := by
  unfold uriParse at h
  split at h
  · injection h with h
    exact Or.inl h.symm
  · simp only [] at h
    split at h
    · rename_i e1 h1
      injection h with h
      exact Or.inr (h ▸ checkAlgorithmParam_err h1)
    · split at h
      · rename_i e1 h1
        injection h with h
        exact Or.inl (h ▸ checkNatParam_err h1)
      · split at h
        · rename_i e1 h1
          injection h with h
          exact Or.inl (h ▸ checkNatParam_err h1)
        · cases h

theorem urlGetParam_err {u k : String} {e : ParseErr} (h : urlGetParam u k = .error e) :
    e = .invalidURI := by
  unfold urlGetParam at h
  split at h
  · injection h with h
    exact h.symm
  · split at h <;> cases h

theorem resolveSecret_err {p : ParsedOTP} {n : String} {e : ParseErr}
    (h : resolveSecret p n = .error e) : e = .invalidURI ∨ e = .missingSecret := by
  unfold resolveSecret at h
  split at h
  · cases h
  · split at h
    · rename_i e1 h1
      injection h with h
      exact Or.inl (h ▸ urlGetParam_err h1)
    · split at h
      · cases h
      · injection h with h
        exact Or.inr h.symm

theorem parseCredFrom_err {p : ParsedOTP} {n u : String} {e : ParseErr}
    (h : parseCredFrom p n u = .error e) : e ≠ .missingOtpType := by
  unfold parseCredFrom at h
  simp only [] at h
  split at h
  · injection h with h
    subst h
    simp
  · split at h
    · rename_i e1 h1
      injection h with h
      subst h
      rcases resolveSecret_err h1 with rfl | rfl <;> simp
    · split at h
      · injection h with h
        subst h
        simp
      · cases h

theorem parseFromUrl_err {n u : String} {e : ParseErr} (h : parseFromUrl n u = .error e) :
    e ≠ .missingOtpType := by
  unfold parseFromUrl at h
  split at h
  · rename_i e1 h1
    injection h with h
    subst h
    rcases uriParse_err h1 with rfl | rfl <;> simp
  · exact parseCredFrom_err h

theorem migrationBranch_err {n : String} {e : ParseErr} (h : migrationBranch n = .error e) :
    e = .invalidMigrationPayload := by
  unfold migrationBranch at h
  simp only [] at h
  split at h
  · injection h with h
    exact h.symm
  · cases h

theorem buildOtpauthUrl_err {n : String} {e : ParseErr} (h : buildOtpauthUrl n = .error e) :
    e = .invalidFormat := by
  unfold buildOtpauthUrl at h
  split at h
  · cases h
  · split at h
    · cases h
    · split at h
      · cases h
      · simp only [] at h
        split at h
        · cases h
        · injection h with h
          exact h.symm

theorem attemptParse_err {url : String} {e : ParseErr} (h : attemptParse url = .error e) :
    e ≠ .missingOtpType := by
  unfold attemptParse at h
  simp only [] at h
  split at h
  · intro hc
    subst hc
    cases migrationBranch_err h
  · split at h
    · rename_i e1 h1
      injection h with h
      subst h
      intro hc
      subst hc
      cases buildOtpauthUrl_err h1
    · exact parseFromUrl_err h

theorem parseHandle_eq_attempt (retry : String → Except ParseErr Credential) (url : String) :
    parseHandle retry url = attemptParse url := by
  unfold parseHandle
  cases h : attemptParse url with
  | ok c => rfl
  | error e =>
    have hne := attemptParse_err h
    simp [hne]

/-- The retry branch of the `catch` block is unreachable, so the value of
`parseOTPAuthURL` never depends on the retry depth. -/
theorem parseOTPAuthURL_eq_attempt (fuel : Nat) (url : String) :
    parseOTPAuthURL fuel url = attemptParse url := by
  cases fuel with
  | zero => exact parseHandle_eq_attempt _ url
  | succ f => exact parseHandle_eq_attempt _ url

/-- C9: the parser's self-recovery is bounded — the result is independent
of the allowed retry depth (so the recursion terminates for every input),
and the `Missing OTP type` trigger is in fact never produced, so no second
retry can ever occur. -/
theorem parseOTPAuthURL_retry_bounded (fuel : Nat) (url : String) :
    parseOTPAuthURL fuel url = parseOTPAuthURL 1 url ∧
    attemptParse url ≠ .error .missingOtpType := by
  refine ⟨(parseOTPAuthURL_eq_attempt fuel url).trans (parseOTPAuthURL_eq_attempt 1 url).symm, ?_⟩
  intro h
  exact attemptParse_err h rfl

/-! ## Parser output invariants -/

theorem jsOrNat_pos (o : Option Nat) {d : Nat} (hd : 0 < d) : 0 < jsOrNat o d := by
  cases o with
  | none => simpa [jsOrNat] using hd
  | some n =>
    by_cases hn : n = 0
    · simpa [jsOrNat, hn] using hd
    · simp only [jsOrNat, hn, if_false]
      omega

theorem checkAlgorithmParam_ok {o a : Option String} (h : checkAlgorithmParam o = .ok a) :
    a = none ∨ a = some "SHA1" ∨ a = some "SHA256" ∨ a = some "SHA512" := by
  unfold checkAlgorithmParam at h
  split at h
  · injection h with h
    exact Or.inl h.symm
  · split at h
    · rename_i s hcond
      injection h with h
      subst h
      rcases hcond with hc | hc | hc <;> rw [hc] <;> simp
    · cases h

theorem uriParse_ok_algorithm {u : String} {p : ParsedOTP} (h : uriParse u = .ok p) :
    p.algorithm = none ∨ p.algorithm = some "SHA1" ∨ p.algorithm = some "SHA256" ∨
    p.algorithm = some "SHA512" := by
  unfold uriParse at h
  split at h
  · cases h
  · simp only [] at h
    split at h
    · cases h
    · rename_i algo halgo
      split at h
      · cases h
      · split at h
        · cases h
        · injection h with h
          subst h
          simpa using checkAlgorithmParam_ok halgo

theorem alphabet_getD (i : Nat) : isB32UpperChar (b32AlphabetChars.getD i 'A') = true := by
  by_cases h : i < 32
  · interval_cases i <;> decide
  · have h32 : b32AlphabetChars.length ≤ i := by
      have hl : b32AlphabetChars.length = 32 := by decide
      omega
    rw [List.getD_eq_default _ _ h32]
    decide

theorem base32Encode_alphabet (bytes : List Nat) :
    ∀ ch ∈ (base32Encode bytes).data, isB32UpperChar ch = true := by
  intro ch hch
  have hch2 : ch ∈ (chunk5 (8 * bytes.length) ((bytes.map byteBits).flatten)).map
      (fun c => b32AlphabetChars.getD (bitsVal (c ++ List.replicate (5 - c.length) false)) 'A') := hch
  obtain ⟨c, _, rfl⟩ := List.mem_map.mp hch2
  exact alphabet_getD _

theorem parseCredFrom_invariants {p : ParsedOTP} {n u : String} {cred : Credential}
    (halg : p.algorithm = none ∨ p.algorithm = some "SHA1" ∨ p.algorithm = some "SHA256" ∨
      p.algorithm = some "SHA512")
    (h : parseCredFrom p n u = .ok cred) : credInvariants cred := by
  unfold parseCredFrom at h
  simp only [] at h
  split at h
  · cases h
  · split at h
    · cases h
    · split at h
      · cases h
      · injection h with h
        subst h
        refine ⟨base32Encode_alphabet _, jsOrNat_pos _ (by norm_num),
          jsOrNat_pos _ (by norm_num), ?_⟩
        rcases halg with h1 | h1 | h1 | h1 <;> rw [h1] <;> dsimp only <;> decide

theorem parseFromUrl_invariants {n u : String} {cred : Credential}
    (h : parseFromUrl n u = .ok cred) : credInvariants cred := by
  unfold parseFromUrl at h
  split at h
  · cases h
  · rename_i parsed0 hu
    refine parseCredFrom_invariants ?_ h
    have halg := uriParse_ok_algorithm hu
    split <;> simpa using halg

/-- C5 (amended): every credential produced by the parser outside the
migration branch satisfies the data-model invariants: normalized secret,
positive digits and period, and a supported algorithm. -/
theorem parser_output_invariants (fuel : Nat) (url : String) (cred : Credential)
    (h : parseOTPAuthURL fuel url = .ok cred)
    (hm : strStartsWith (strTrim url) "otpauth-migration://" = false) :
    credInvariants cred := by
  rw [parseOTPAuthURL_eq_attempt] at h
  unfold attemptParse at h
  simp only [] at h
  rw [hm] at h
  simp only [Bool.false_eq_true, if_false] at h
  split at h
  · cases h
  · exact parseFromUrl_invariants h

/-- C5 witness: the canonical example satisfies the invariants. -/
theorem parser_output_invariants_witness :
    (parseOTPAuthURL 1
        "otpauth://totp/Example:alice@example.com?secret=JBSWY3DPEHPK3PXP&issuer=Example" =
      .ok { name := "alice@example.com", issuer := "Example", secret := "JBSWY3DPEHPK3PXP",
            algorithm := "SHA1", digits := 6, period := 30 } ∧
     strStartsWith
       (strTrim "otpauth://totp/Example:alice@example.com?secret=JBSWY3DPEHPK3PXP&issuer=Example")
       "otpauth-migration://" = false) ∧
    credInvariants { name := "alice@example.com", issuer := "Example",
                     secret := "JBSWY3DPEHPK3PXP", algorithm := "SHA1", digits := 6, period := 30 } :=
  ⟨⟨rfl, rfl⟩,
   parser_output_invariants 1
     "otpauth://totp/Example:alice@example.com?secret=JBSWY3DPEHPK3PXP&issuer=Example"
     _ rfl rfl⟩

/-- C5 counterexample: the migration branch copies the raw payload
substring into the credential without normalization, so a parser-produced
credential can carry a non-normalized (lowercase) secret. -/
theorem migration_secret_not_normalized :
    parseOTPAuthURL 1 "otpauth-migration://offline?data=abcdefghijklmnopqrstuvwxyz234567" =
      .ok { name := "Migrated Account", issuer := "Migration Service",
            secret := "abcdefghijklmnopqrstuvwxyz234567",
            algorithm := "SHA1", digits := 6, period := 30 } ∧
    ¬ ∀ ch ∈ ("abcdefghijklmnopqrstuvwxyz234567" : String).data, isB32UpperChar ch = true := by
  constructor
  · rfl
  · decide

/-! ## Bare-secret fallback -/

/-- C8: an input that reaches the bare-secret fallback is stripped to its
Base32 characters; with at least 16 of them a minimal
`otpauth://totp/Unknown?secret=...` URL is synthesized, and otherwise the
parse fails with `InvalidFormat`. -/
theorem bare_secret_fallback (url : String)
    (hm : strStartsWith (strTrim url) "otpauth-migration://" = false)
    (ho : extractOtpauth (strTrim url) = none)
    (hj : jsonBranch (strTrim url) = .error ())
    (hq : queryBranch (strTrim url) = .error ()) :
    (16 ≤ (stripNonBase32 (strTrim url)).length →
      buildOtpauthUrl (strTrim url) =
        .ok ("otpauth://totp/Unknown?secret=" ++ stripNonBase32 (strTrim url))) ∧
    ((stripNonBase32 (strTrim url)).length < 16 →
      parseOTPAuthURL 1 url = .error .invalidFormat) := by
  have hb : buildOtpauthUrl (strTrim url) =
      (if 16 ≤ (stripNonBase32 (strTrim url)).length
       then .ok ("otpauth://totp/Unknown?secret=" ++ stripNonBase32 (strTrim url))
       else .error .invalidFormat) := by
    unfold buildOtpauthUrl
    rw [ho, hj, hq]
  constructor
  · intro hlen
    rw [hb, if_pos hlen]
  · intro hlen
    rw [parseOTPAuthURL_eq_attempt]
    unfold attemptParse
    simp only [] at hb ⊢
    rw [hm]
    simp only [Bool.false_eq_true, if_false]
    rw [hb, if_neg (by omega)]

/-- C8 witness: `"not a url"` strips to 7 Base32 characters, so the parse
fails with `InvalidFormat`. -/
theorem bare_secret_fallback_witness :
    (strStartsWith (strTrim "not a url") "otpauth-migration://" = false ∧
     extractOtpauth (strTrim "not a url") = none ∧
     jsonBranch (strTrim "not a url") = .error () ∧
     queryBranch (strTrim "not a url") = .error () ∧
     (stripNonBase32 (strTrim "not a url")).length < 16) ∧
    parseOTPAuthURL 1 "not a url" = .error .invalidFormat :=
  ⟨⟨rfl, rfl, rfl, rfl, by decide⟩,
   (bare_secret_fallback "not a url" rfl rfl rfl rfl).2 (by decide)⟩

/-! ## JSON round-trip for the encryption blob -/

theorem string_mk_data (s : String) : String.mk s.data = s := rfl

theorem parseStringBody_quote (rest : List Char) :
    parseStringBody ('"' :: rest) = some ([], rest) := by
  conv_lhs => unfold parseStringBody
  simp

theorem parseStringBody_esc (e u : Char) (hu : unescape e = some u) (rest : List Char) :
    parseStringBody ('\\' :: e :: rest) =
      (parseStringBody rest).map (fun p => (u :: p.1, p.2)) := by
  conv_lhs => unfold parseStringBody
  simp [hu]

theorem parseStringBody_other (c : Char) (h1 : c ≠ '"') (h2 : c ≠ '\\') (rest : List Char) :
    parseStringBody (c :: rest) = (parseStringBody rest).map (fun p => (c :: p.1, p.2)) := by
  conv_lhs => unfold parseStringBody
  simp [h1, h2]

/-- A JSON string literal body is parsed back to the unescaped content. -/
theorem parseStringBody_escape (l rest : List Char) :
    parseStringBody ((l.map escapeChar).flatten ++ '"' :: rest) = some (l, rest) := by
  induction l with
  | nil => simpa using parseStringBody_quote rest
  | cons c t ih =>
    simp only [List.map_cons, List.flatten_cons, List.append_assoc]
    by_cases h1 : c = '"'
    · subst h1
      rw [show escapeChar '"' = ['\\', '"'] from rfl]
      simp only [List.cons_append, List.nil_append]
      rw [parseStringBody_esc '"' '"' rfl, ih]
      rfl
    · by_cases h2 : c = '\\'
      · subst h2
        rw [show escapeChar '\\' = ['\\', '\\'] from rfl]
        simp only [List.cons_append, List.nil_append]
        rw [parseStringBody_esc '\\' '\\' rfl, ih]
        rfl
      · by_cases h3 : c = '\n'
        · subst h3
          rw [show escapeChar '\n' = ['\\', 'n'] from rfl]
          simp only [List.cons_append, List.nil_append]
          rw [parseStringBody_esc 'n' '\n' rfl, ih]
          rfl
        · by_cases h4 : c = '\r'
          · subst h4
            rw [show escapeChar '\r' = ['\\', 'r'] from rfl]
            simp only [List.cons_append, List.nil_append]
            rw [parseStringBody_esc 'r' '\r' rfl, ih]
            rfl
          · by_cases h5 : c = '\t'
            · subst h5
              rw [show escapeChar '\t' = ['\\', 't'] from rfl]
              simp only [List.cons_append, List.nil_append]
              rw [parseStringBody_esc 't' '\t' rfl, ih]
              rfl
            · have hec : escapeChar c = [c] := by
                simp [escapeChar, h1, h2, h3, h4, h5]
              rw [hec]
              simp only [List.cons_append, List.nil_append]
              rw [parseStringBody_other c h1 h2, ih]
              rfl

theorem skipWs_notws (c : Char) (h : isWsChar c = false) (t : List Char) :
    skipWs (c :: t) = c :: t := by
  conv_lhs => unfold skipWs
  simp [h]

theorem parseJVal_quote (fuel : Nat) (t : List Char) :
    parseJVal fuel ('"' :: t) =
      (parseStringBody t).map (fun p => (Json.str (String.mk p.1), p.2)) := by
  conv_lhs => unfold parseJVal
  rw [skipWs_notws '"' rfl]
  simp

theorem parseMembers_strfield (f : Nat) (k v : String) (rest : List Char)
    (acc : List (String × Json)) :
    parseMembers (f + 1)
      ('"' :: ((k.data.map escapeChar).flatten ++ '"' :: ':' :: '"' ::
        ((v.data.map escapeChar).flatten ++ '"' :: rest))) acc =
      (match skipWs rest with
       | ',' :: r4 => parseMembers f r4 ((k, Json.str v) :: acc)
       | '}' :: r4 => some (Json.obj ((k, Json.str v) :: acc).reverse, r4)
       | _ => none) := by
  conv_lhs => unfold parseMembers
  rw [skipWs_notws '"' rfl]
  simp only []
  rw [parseStringBody_escape]
  simp only []
  rw [skipWs_notws ':' rfl]
  simp only []
  rw [parseJVal_quote, parseStringBody_escape]
  simp [string_mk_data]

theorem jChars_obj2 (k1 k2 v1 v2 : String) (rest : List Char) :
    jChars (Json.obj [(k1, Json.str v1), (k2, Json.str v2)]) ++ rest =
      '{' :: '"' :: ((k1.data.map escapeChar).flatten ++ '"' :: ':' :: '"' ::
        ((v1.data.map escapeChar).flatten ++ '"' :: ',' :: '"' ::
        ((k2.data.map escapeChar).flatten ++ '"' :: ':' :: '"' ::
        ((v2.data.map escapeChar).flatten ++ '"' :: '}' :: rest)))) := by
  simp [jChars, jCharsFields, strLitChars, List.append_assoc]

theorem parseJVal_brace (f : Nat) (t : List Char) :
    parseJVal (f + 1) ('{' :: t) =
      (match skipWs t with
       | '}' :: r => some (Json.obj [], r)
       | l2 => parseMembers f l2 []) := by
  conv_lhs => unfold parseJVal
  rw [skipWs_notws '{' rfl]
  simp

/-- A serialized two-string-field object parses back to itself. -/
theorem parseJVal_obj2 (f : Nat) (k1 k2 v1 v2 : String) (rest : List Char) :
    parseJVal (f + 3) (jChars (Json.obj [(k1, Json.str v1), (k2, Json.str v2)]) ++ rest) =
      some (Json.obj [(k1, Json.str v1), (k2, Json.str v2)], rest) := by
  rw [jChars_obj2]
  rw [show (f + 3 : Nat) = (f + 2) + 1 from rfl]
  rw [parseJVal_brace (f + 2)]
  rw [skipWs_notws '"' rfl]
  have h1 := parseMembers_strfield (f + 1) k1 v1
    (',' :: '"' :: ((k2.data.map escapeChar).flatten ++ '"' :: ':' :: '"' ::
      ((v2.data.map escapeChar).flatten ++ '"' :: '}' :: rest))) []
  rw [skipWs_notws ',' rfl] at h1
  have h2 := parseMembers_strfield f k2 v2 ('}' :: rest) [(k1, Json.str v1)]
  rw [skipWs_notws '}' rfl] at h2
  exact h1.trans h2

theorem jsonParse_obj2 (k1 k2 v1 v2 : String) :
    jsonParse (jsonStringify (Json.obj [(k1, Json.str v1), (k2, Json.str v2)])) =
      some (Json.obj [(k1, Json.str v1), (k2, Json.str v2)]) := by
  unfold jsonParse
  rw [show (jsonStringify (Json.obj [(k1, Json.str v1), (k2, Json.str v2)])).data =
      jChars (Json.obj [(k1, Json.str v1), (k2, Json.str v2)]) ++ [] from
    (List.append_nil _).symm]
  rw [parseJVal_obj2]
  rfl

/-! ## Storage layer lemmas -/

theorem lookupKV_setKV_self (st : Store) (k v : String) :
    lookupKV (setKV st k v) k = some v := by
  simp [lookupKV, setKV, List.lookup]

theorem lookupKV_setKV_ne (st : Store) (k k2 v : String) (h : k2 ≠ k) :
    lookupKV (setKV st k v) k2 = lookupKV st k2 := by
  simp only [lookupKV, setKV, List.lookup]
  rw [show (k2 == k) = false from beq_eq_false_iff_ne.mpr h]

theorem getEncryptionKey_lookup (st : Store) (k : String)
    (h : k ≠ ENCRYPTION_KEY_STORAGE_KEY) :
    lookupKV (getEncryptionKey st).2 k = lookupKV st k := by
  unfold getEncryptionKey
  split
  · rfl
  · exact lookupKV_setKV_ne _ _ _ _ h

theorem encryptData_eq (data : String) (st : Store) :
    encryptData data st =
      (jsonStringify (Json.obj [("iv", Json.str (nextRand (getEncryptionKey st).2).1),
         ("data", Json.str (sha256Hex (data ++ (getEncryptionKey st).1 ++
           (nextRand (getEncryptionKey st).2).1)))]),
       (nextRand (getEncryptionKey st).2).2) := rfl

theorem saveAccounts_enc (entries : List Json) (st : Store)
    (henc : isEncryptedStorageEnabled st = true) :
    saveAccounts (Json.arr entries) st =
      setKV (nextRand (getEncryptionKey st).2).2 ACCOUNTS_STORAGE_KEY
        (jsonStringify (Json.obj [("iv", Json.str (nextRand (getEncryptionKey st).2).1),
          ("data", Json.str (encHashOf (Json.arr entries) st))])) := by
  unfold saveAccounts
  simp only [henc, if_true, encryptData_eq]
  rfl

theorem decryptData_blob (a b : String) (st : Store) :
    decryptData (jsonStringify (Json.obj [("iv", Json.str a), ("data", Json.str b)])) st =
      (some b, (getEncryptionKey st).2) := by
  unfold decryptData
  rw [jsonParse_obj2]
  simp [jGet, List.lookup]

def isHexLowerChar (c : Char) : Bool :=
  ('0' ≤ c && c ≤ '9') || ('a' ≤ c && c ≤ 'f')

theorem hexDigitChar_hex (n : Nat) : isHexLowerChar (hexDigitChar n) = true := by
  by_cases h : n < 16
  · interval_cases n <;> decide
  · have h16 : ("0123456789abcdef".data).length ≤ n := by
      have hl : ("0123456789abcdef".data).length = 16 := by decide
      omega
    unfold hexDigitChar
    rw [List.getD_eq_default _ _ h16]
    decide

theorem sha256Hex_chars (s : String) :
    ∀ c ∈ (sha256Hex s).data, isHexLowerChar c = true := by
  intro c hc
  have hc2 : c ∈ (List.range 64).map (fun i => hexDigitChar (sha256HexNibble s i)) := hc
  obtain ⟨i, _, rfl⟩ := List.mem_map.mp hc2
  exact hexDigitChar_hex _

/-- The modelled digest is all hex characters, so it can never equal a
serialized JSON array (which starts with `[`). -/
theorem sha256Hex_ne (s t : String) (tl : List Char) (ht : t.data = '[' :: tl) :
    sha256Hex s ≠ t := by
  intro h
  have hmem : '[' ∈ (sha256Hex s).data := by
    rw [h, ht]
    exact List.mem_cons_self _ _
  have := sha256Hex_chars s '[' hmem
  simp [isHexLowerChar] at this

theorem jsonStringify_obj_ne_empty (fs : List (String × Json)) :
    jsonStringify (Json.obj fs) ≠ "" := by
  intro h
  have hd : ('{' :: jCharsFields fs ++ ['}'] : List Char) = [] := congrArg String.data h
  simp at hd

theorem getAccounts_enc (st2 st3 : Store) (blob d : String)
    (hs : lookupKV st2 ACCOUNTS_STORAGE_KEY = some blob)
    (hne : blob ≠ "")
    (hfl : isEncryptedStorageEnabled st2 = true)
    (hdec : decryptData blob st2 = (some d, st3))
    (hd : jsonParse d = none) :
    (getAccounts st2).1 = Json.arr [] := by
  unfold getAccounts
  rw [hs]
  by_cases hd0 : d = ""
  · simp [hne, hfl, hdec, hd0]
  · simp [hne, hfl, hdec, hd0, hd]

/-- C4: with encrypted storage enabled, saving and re-reading does not
recover the account list — the stored blob holds only a hash, decryptData
returns that hash verbatim (which cannot equal the serialized accounts),
the hash fails JSON parsing, and getAccounts therefore yields the empty
list instead of failing fatally. -/
theorem encrypted_storage_not_recoverable (entries : List Json) (st : Store)
    (henc : isEncryptedStorageEnabled st = true)
    (hhash : jsonParse (encHashOf (Json.arr entries) st) = none) :
    lookupKV (saveAccounts (Json.arr entries) st) ACCOUNTS_STORAGE_KEY =
      some (jsonStringify (Json.obj [("iv", Json.str (nextRand (getEncryptionKey st).2).1),
        ("data", Json.str (encHashOf (Json.arr entries) st))])) ∧
    (decryptData (jsonStringify (Json.obj [("iv", Json.str (nextRand (getEncryptionKey st).2).1),
        ("data", Json.str (encHashOf (Json.arr entries) st))]))
      (saveAccounts (Json.arr entries) st)).1 = some (encHashOf (Json.arr entries) st) ∧
    encHashOf (Json.arr entries) st ≠ jsonStringify (Json.arr entries) ∧
    (getAccounts (saveAccounts (Json.arr entries) st)).1 = Json.arr [] := by
  have hstored : lookupKV (saveAccounts (Json.arr entries) st) ACCOUNTS_STORAGE_KEY =
      some (jsonStringify (Json.obj [("iv", Json.str (nextRand (getEncryptionKey st).2).1),
        ("data", Json.str (encHashOf (Json.arr entries) st))])) := by
    rw [saveAccounts_enc entries st henc]
    exact lookupKV_setKV_self _ _ _
  have hflag : isEncryptedStorageEnabled (saveAccounts (Json.arr entries) st) = true := by
    rw [saveAccounts_enc entries st henc]
    unfold isEncryptedStorageEnabled at henc ⊢
    rw [lookupKV_setKV_ne _ _ _ _ (by decide)]
    have hnx : lookupKV (nextRand (getEncryptionKey st).2).2 ENCRYPTED_STORAGE_ENABLED_KEY =
        lookupKV (getEncryptionKey st).2 ENCRYPTED_STORAGE_ENABLED_KEY := rfl
    rw [hnx, getEncryptionKey_lookup st _ (by decide)]
    exact henc
  have hdec := decryptData_blob (nextRand (getEncryptionKey st).2).1
    (encHashOf (Json.arr entries) st) (saveAccounts (Json.arr entries) st)
  refine ⟨hstored, by rw [hdec], ?_, ?_⟩
  · exact sha256Hex_ne _ _ _ rfl
  · exact getAccounts_enc _ _ _ _ hstored (jsonStringify_obj_ne_empty _) hflag hdec hhash

/-- C4 witness at a concrete state with encryption enabled. -/
theorem encrypted_storage_not_recoverable_witness :
    (isEncryptedStorageEnabled
       ⟨[(ENCRYPTED_STORAGE_ENABLED_KEY, "true"), (ENCRYPTION_KEY_STORAGE_KEY, "k")], ["aa"]⟩
       = true ∧
     jsonParse (encHashOf (Json.arr [])
       ⟨[(ENCRYPTED_STORAGE_ENABLED_KEY, "true"), (ENCRYPTION_KEY_STORAGE_KEY, "k")], ["aa"]⟩)
       = none) ∧
    (getAccounts (saveAccounts (Json.arr [])
       ⟨[(ENCRYPTED_STORAGE_ENABLED_KEY, "true"), (ENCRYPTION_KEY_STORAGE_KEY, "k")], ["aa"]⟩)).1
      = Json.arr [] :=
  ⟨⟨rfl, rfl⟩,
   (encrypted_storage_not_recoverable []
     ⟨[(ENCRYPTED_STORAGE_ENABLED_KEY, "true"), (ENCRYPTION_KEY_STORAGE_KEY, "k")], ["aa"]⟩
     rfl rfl).2.2.2⟩

/-! ## Import semantics -/

/-- C10: importAccounts replaces the whole stored collection with exactly
the backup entries whose name, issuer and secret fields are strings (other
fields unvalidated, previous accounts discarded); a non-JSON backup or a
missing accounts array returns false and leaves the store unchanged. -/
theorem importAccounts_replaces (backup : String) (st : Store) :
    (jsonParse backup = none → importAccounts backup st = (false, st)) ∧
    (∀ j, jsonParse backup = some j →
      (∀ entries, jGet j "accounts" ≠ some (Json.arr entries)) →
      importAccounts backup st = (false, st)) ∧
    (∀ j entries, jsonParse backup = some j → jGet j "accounts" = some (Json.arr entries) →
      isEncryptedStorageEnabled st = false →
      importAccounts backup st =
        (true, setKV st ACCOUNTS_STORAGE_KEY
          (jsonStringify (Json.arr (entries.filter validAccountCheck)))) ∧
      lookupKV (importAccounts backup st).2 ACCOUNTS_STORAGE_KEY =
        some (jsonStringify (Json.arr (entries.filter validAccountCheck)))) := by
  refine ⟨?_, ?_, ?_⟩
  · intro h
    unfold importAccounts
    rw [h]
  · intro j hj hno
    unfold importAccounts
    rw [hj]
    show importAccountsFrom j st = (false, st)
    unfold importAccountsFrom
    split
    · rename_i entries heq
      exact absurd heq (hno entries)
    · rfl
  · intro j entries hj hacc henc
    have hsave : saveAccounts (Json.arr (entries.filter validAccountCheck)) st =
        setKV st ACCOUNTS_STORAGE_KEY
          (jsonStringify (Json.arr (entries.filter validAccountCheck))) := by
      unfold saveAccounts
      simp only [henc, Bool.false_eq_true, if_false]
    have heq : importAccounts backup st =
        (true, saveAccounts (Json.arr (entries.filter validAccountCheck)) st) := by
      unfold importAccounts
      rw [hj]
      show importAccountsFrom j st = _
      unfold importAccountsFrom
      rw [hacc]
    rw [heq, hsave]
    exact ⟨rfl, lookupKV_setKV_self _ _ _⟩

/-- C10 witness: a concrete backup with one well-formed entry (carrying an
unvalidated `MD5` algorithm), a `null` entry and an entry missing fields. -/
theorem importAccounts_replaces_witness :
    (jsonParse "\x7b\"accounts\":[\x7b\"name\":\"a\",\"issuer\":\"b\",\"secret\":\"s\",\"algorithm\":\"MD5\"\x7d,null]\x7d"
       = some (Json.obj [("accounts", Json.arr
           [Json.obj [("name", Json.str "a"), ("issuer", Json.str "b"),
                      ("secret", Json.str "s"), ("algorithm", Json.str "MD5")], Json.null])]) ∧
     jGet (Json.obj [("accounts", Json.arr
           [Json.obj [("name", Json.str "a"), ("issuer", Json.str "b"),
                      ("secret", Json.str "s"), ("algorithm", Json.str "MD5")], Json.null])])
         "accounts"
       = some (Json.arr
           [Json.obj [("name", Json.str "a"), ("issuer", Json.str "b"),
                      ("secret", Json.str "s"), ("algorithm", Json.str "MD5")], Json.null]) ∧
     isEncryptedStorageEnabled ⟨[], []⟩ = false) ∧
    importAccounts
        "\x7b\"accounts\":[\x7b\"name\":\"a\",\"issuer\":\"b\",\"secret\":\"s\",\"algorithm\":\"MD5\"\x7d,null]\x7d"
        ⟨[], []⟩ =
      (true, setKV ⟨[], []⟩ ACCOUNTS_STORAGE_KEY
        (jsonStringify (Json.arr
          ([Json.obj [("name", Json.str "a"), ("issuer", Json.str "b"),
                      ("secret", Json.str "s"), ("algorithm", Json.str "MD5")],
            Json.null].filter validAccountCheck)))) :=
  ⟨⟨rfl, rfl, rfl⟩,
   ((importAccounts_replaces
       "\x7b\"accounts\":[\x7b\"name\":\"a\",\"issuer\":\"b\",\"secret\":\"s\",\"algorithm\":\"MD5\"\x7d,null]\x7d"
       ⟨[], []⟩).2.2 _ _ rfl rfl rfl).1⟩

end OtAuth
